import Mathlib

/-!
# Verification of the sherlog logging library core

Shallow embedding of the fan-out composite logger (`PolyLogger`), the
single-file sink (`FileLogger`) and the count-based rotating sink
(`SizeBasedRollingFileLogger`) from the Go sources, together with proofs
of the behavioural claims about them.

Modelling conventions:
* A Go `error` result is an `Option String` (`none` = `nil`, `some msg` =
  the error's message; `AsError`/`NewLeveledException` wrapping is
  represented by the message it carries).
* A `FileLogger`'s file handle is modelled by the ordered trace of
  operations performed on it (`FileOp`): each `file.Write` becomes a
  `FileOp.write` carrying the bytes, each `file.Sync` a `FileOp.sync`.
  The mutex only serialises calls, so a single call is modelled as the
  sequential trace it produces.  Writes whose error result the Go code
  ignores are modelled as succeeding; where the code checks a write or
  serialisation error that the environment may produce (`LogJson`'s
  fallback path), the outcome is an explicit parameter.
* The rendering behaviour of an event (Go `interface{}` / `error`
  values with optional `Loggable` / `LoggableWithNoStackOption` /
  `JsonLoggable` capabilities, checked by type assertion) is modelled by
  inductive argument types carrying the bytes the capability method
  would write and the error it would return.
* The current time formatted with `Location`/`timeFmt` is passed in as
  the `now : String` parameter.
-/

namespace Sherlog

/-- One operation performed on the sink's file handle. -/
inductive FileOp where
  | write (bytes : String)
  | sync
deriving DecidableEq, Repr

/-- An argument to `FileLogger.Log` (Go `interface{}`): a `nil` value, a
value satisfying the `Loggable` capability (carrying the bytes its `Log`
method writes and the error it returns), a plain `error` (carrying its
`Error()` message), or any other value (carrying its `fmt.Sprintf`
rendering). -/
inductive LogArg where
  | nilArg
  | loggable (render : String) (renderErr : Option String)
  | plainError (message : String)
  | other (repr : String)
deriving DecidableEq, Repr

/-- An argument to `FileLogger.LogNoStack` (Go `error`). -/
inductive NoStackArg where
  | nilErr
  | noStackCapable (render : String) (renderErr : Option String)
  | plain (message : String)
deriving DecidableEq, Repr

/-- An argument to `FileLogger.LogJson` (Go `error`). -/
inductive JsonArg where
  | nilErr
  | jsonCapable (render : String) (renderErr : Option String)
  | plain (message : String)
deriving DecidableEq, Repr

/-- `FileLogger.log`: run the capability's log function against the file
(it writes `render` and returns `renderErr`); on success, `file.Sync()`.
From src/logger.go lines 186-197. -/
def FileLogger.logVia (render : String) (renderErr : Option String) :
    Option String × List FileOp :=
  match renderErr with
  | some e => (some e, [FileOp.write render])
  | none => (none, [FileOp.write render, FileOp.sync])

/-- `FileLogger.logNonSherlogError`: write the formatted current time,
`" - "`, then the error's message.  No `Sync` is performed on this path.
From src/logger.go lines 199-214. -/
def FileLogger.logNonSherlogError (now message : String) :
    Option String × List FileOp :=
  (none, [FileOp.write now, FileOp.write " - ", FileOp.write message])

/-- The loop body of `FileLogger.Log` (src/logger.go lines 99-122): for
each argument, fail on `nil`, dispatch on the `Loggable` capability,
fall back to `logNonSherlogError` for plain errors, and `fmt.Sprintf`
for anything else; between consecutive arguments write the
`"\nCaused by:\n"` separator; stop at the first error. -/
def FileLogger.logEvents (now : String) : List LogArg → Option String × List FileOp
  | [] => (none, [])
  | a :: rest =>
    let step : Option String × List FileOp :=
      match a with
      | LogArg.nilArg => (some "tried to log nil error", [])
      | LogArg.loggable r re => FileLogger.logVia r re
      | LogArg.plainError m => FileLogger.logNonSherlogError now m
      | LogArg.other s => (none, [FileOp.write s])
    match step with
    | (some e, ops) => (some e, ops)
    | (none, ops) =>
      let sep : List FileOp := if rest.isEmpty then [] else [FileOp.write "\nCaused by:\n"]
      let tail := FileLogger.logEvents now rest
      (tail.1, ops ++ sep ++ tail.2)

/-- `FileLogger.Log` (src/logger.go lines 89-124): reject an empty
argument list before taking the lock; otherwise run the event loop.  The
deferred function registered after `Lock()` writes the `"\n\n"`
terminator on every exit path, including early error returns. -/
def FileLogger.Log (now : String) (args : List LogArg) :
    Option String × List FileOp :=
  if args.length < 1 then (some "no parameters provided to Log", [])
  else
    let body := FileLogger.logEvents now args
    (body.1, body.2 ++ [FileOp.write "\n\n"])

/-- `FileLogger.LogNoStack` (src/logger.go lines 130-145): the `nil`
check precedes the lock and the deferred terminator, so a `nil` argument
produces no file operation at all. -/
def FileLogger.LogNoStack (now : String) (a : NoStackArg) :
    Option String × List FileOp :=
  match a with
  | NoStackArg.nilErr => (some "tried to log nil error", [])
  | NoStackArg.noStackCapable r re =>
    let body := FileLogger.logVia r re
    (body.1, body.2 ++ [FileOp.write "\n\n"])
  | NoStackArg.plain m =>
    let body := FileLogger.logNonSherlogError now m
    (body.1, body.2 ++ [FileOp.write "\n\n"])

/-- The JSON object `json.Marshal` produces on `LogJson`'s fallback path
(Go marshals map keys in sorted order, so `Message` precedes `Time`).
The model assumes messages need no JSON escaping. -/
def jsonFallback (now message : String) : String :=
  "\x7b\"Message\":\"" ++ message ++ "\",\"Time\":\"" ++ now ++ "\"\x7d"

/-- `FileLogger.LogJson` (src/logger.go lines 151-177): `nil` check
before the lock; a `JsonLoggable` argument is logged via `logVia`; any
other error gets the synthesized `Time`/`Message` object, whose
serialisation (`marshalErr`) and write (`writeErr`) may fail.  The
deferred function writes a single `"\n"` on every exit path after the
lock was taken, error returns included. -/
def FileLogger.LogJson (now : String) (a : JsonArg)
    (marshalErr writeErr : Option String) : Option String × List FileOp :=
  match a with
  | JsonArg.nilErr => (some "tried to log nil error", [])
  | JsonArg.jsonCapable r re =>
    let body := FileLogger.logVia r re
    (body.1, body.2 ++ [FileOp.write "\n"])
  | JsonArg.plain m =>
    match marshalErr with
    | some e => (some e, [FileOp.write "\n"])
    | none =>
      match writeErr with
      | some e => (some e, [FileOp.write "\n"])
      | none => (none, [FileOp.write (jsonFallback now m), FileOp.write "\n"])

/-- A child sink of a `PolyLogger`, abstracted to what the composite's
dispatch code observes: whether the Go type assertion
`logger.(RobustLogger)` succeeds (`robust`), and the error each of its
log methods returns when invoked on the event of the current call. -/
structure ChildLogger where
  robust : Bool
  logResult : Option String
  logNoStackResult : Option String
  logJsonResult : Option String
deriving DecidableEq, Repr

/-- The observable outcome of one `PolyLogger` log call: the error the
composite returns to its caller, the indices of the children whose log
function was dispatched (each exactly once), and the arguments of the
failure-handler invocations made before the call returned.  Goroutine
interleaving is abstracted by listing dispatches and handler calls in
child order; the claims proved below are order-insensitive. -/
structure FanOutCall where
  returned : Option String
  dispatched : List Nat
  handlerCalls : List String
deriving DecidableEq, Repr

/-- `PolyLogger.runLoggerWithFail` (src/unnamed/part_000 lines 98-104):
run the child's log function; if it returned an error and a failure
handler is configured, invoke the handler with that error.  The value is
the list of handler invocations this dispatch performs. -/
def PolyLogger.runLoggerWithFail (hasHandler : Bool) (result : Option String) :
    List String :=
  match result with
  | some e => if hasHandler then [e] else []
  | none => []

/-- The children of `p.Loggers` paired with their indices that pass the
`RobustLogger` type assertion (the dispatch condition of `LogNoStack`
and `LogJson`). -/
def robustChildren (children : List ChildLogger) : List (Nat × ChildLogger) :=
  children.enum.filter (fun p => p.2.robust)

/-- `PolyLogger.Log` (src/unnamed/part_000 lines 54-61): dispatch every
child's `Log` concurrently, wait for all of them, and return `nil`. -/
def PolyLogger.Log (hasHandler : Bool) (children : List ChildLogger) : FanOutCall :=
  { returned := none
    dispatched := children.enum.map Prod.fst
    handlerCalls :=
      (children.map (fun c => PolyLogger.runLoggerWithFail hasHandler c.logResult)).flatten }

/-- `PolyLogger.LogNoStack` (src/unnamed/part_000 lines 69-78): dispatch
`LogNoStack` only on children passing the `RobustLogger` assertion, wait
for all of them, and return `nil`. -/
def PolyLogger.LogNoStack (hasHandler : Bool) (children : List ChildLogger) : FanOutCall :=
  { returned := none
    dispatched := (robustChildren children).map Prod.fst
    handlerCalls :=
      ((robustChildren children).map
        (fun p => PolyLogger.runLoggerWithFail hasHandler p.2.logNoStackResult)).flatten }

/-- `PolyLogger.LogJson` (src/unnamed/part_000 lines 86-95): same
dispatch condition as `LogNoStack`, invoking the children's `LogJson`. -/
def PolyLogger.LogJson (hasHandler : Bool) (children : List ChildLogger) : FanOutCall :=
  { returned := none
    dispatched := (robustChildren children).map Prod.fst
    handlerCalls :=
      ((robustChildren children).map
        (fun p => PolyLogger.runLoggerWithFail hasHandler p.2.logJsonResult)).flatten }

/-- State of a `SizeBasedRollingFileLogger`
(src/size_based_rolling_file_logger.go lines 6-10): the rotation
threshold and the running message count.  The wrapped
`RollingFileLogger`'s file state is abstracted; the outcomes of its
delegated log call and of its `roll()` are passed in as parameters. -/
structure SizeBasedRollingFileLogger where
  countToRollOn : Int
  curCount : Int
deriving DecidableEq, Repr

/-- Outcome of one operation on a `SizeBasedRollingFileLogger`: the
returned error, the successor state, and whether a rotation was
attempted during the call. -/
structure RollStep where
  err : Option String
  state : SizeBasedRollingFileLogger
  rolled : Bool
deriving DecidableEq, Repr

/-- `SizeBasedRollingFileLogger.roll`
(src/size_based_rolling_file_logger.go lines 76-80): delegate to
`RollingFileLogger.roll` (outcome `rollErr`), then reset `curCount` to 0
unconditionally, and return the delegate's error. -/
def SizeBasedRollingFileLogger.roll (s : SizeBasedRollingFileLogger)
    (rollErr : Option String) : RollStep :=
  { err := rollErr, state := { s with curCount := 0 }, rolled := true }

/-- `SizeBasedRollingFileLogger.incAndRollIfNecessary`
(src/size_based_rolling_file_logger.go lines 68-74): increment
`curCount`; if it reaches `countToRollOn`, roll. -/
def SizeBasedRollingFileLogger.incAndRollIfNecessary
    (s : SizeBasedRollingFileLogger) (rollErr : Option String) : RollStep :=
  let s1 : SizeBasedRollingFileLogger := { s with curCount := s.curCount + 1 }
  if s1.curCount ≥ s1.countToRollOn then
    SizeBasedRollingFileLogger.roll s1 rollErr
  else
    { err := none, state := s1, rolled := false }

/-- `SizeBasedRollingFileLogger.Log`
(src/size_based_rolling_file_logger.go lines 35-42): delegate to
`RollingFileLogger.Log` (outcome `delegateErr`); on error return it
immediately, otherwise `incAndRollIfNecessary`. -/
def SizeBasedRollingFileLogger.Log (s : SizeBasedRollingFileLogger)
    (delegateErr rollErr : Option String) : RollStep :=
  match delegateErr with
  | some e => { err := some e, state := s, rolled := false }
  | none => SizeBasedRollingFileLogger.incAndRollIfNecessary s rollErr

/-- `SizeBasedRollingFileLogger.LogNoStack`
(src/size_based_rolling_file_logger.go lines 47-54): same control flow
as `Log` with the delegated `LogNoStack` outcome. -/
def SizeBasedRollingFileLogger.LogNoStack (s : SizeBasedRollingFileLogger)
    (delegateErr rollErr : Option String) : RollStep :=
  match delegateErr with
  | some e => { err := some e, state := s, rolled := false }
  | none => SizeBasedRollingFileLogger.incAndRollIfNecessary s rollErr

/-- `SizeBasedRollingFileLogger.LogJson`
(src/size_based_rolling_file_logger.go lines 59-66): same control flow
as `Log` with the delegated `LogJson` outcome. -/
def SizeBasedRollingFileLogger.LogJson (s : SizeBasedRollingFileLogger)
    (delegateErr rollErr : Option String) : RollStep :=
  match delegateErr with
  | some e => { err := some e, state := s, rolled := false }
  | none => SizeBasedRollingFileLogger.incAndRollIfNecessary s rollErr

/-- `NewRollingFileLoggerWithSizeLimit`
(src/size_based_rolling_file_logger.go lines 15-30): reject a
non-positive `numMessagesPerFile` with a validation error before any
resource is created; otherwise open the timestamped file via
`NewFileLogger` (outcome `openErr`) and, on success, return the sink
with `curCount` zero-initialised.  Result is the Go pair
`(*SizeBasedRollingFileLogger, error)`. -/
def NewRollingFileLoggerWithSizeLimit (numMessagesPerFile : Int)
    (openErr : Option String) :
    Option SizeBasedRollingFileLogger × Option String :=
  if numMessagesPerFile ≤ 0 then
    (none, some "log files must have room for at least 1 message.")
  else
    match openErr with
    | some e => (none, some e)
    | none =>
      (some { countToRollOn := numMessagesPerFile, curCount := 0 }, none)

/-- Number of `Sync` calls in a file-operation trace. -/
def countSyncs (ops : List FileOp) : Nat :=
  ops.countP (fun o => match o with | FileOp.sync => true | _ => false)

/-- Whether a `Log` argument satisfies the `Loggable` capability. -/
def isLoggableArg : LogArg → Bool
  | LogArg.loggable _ _ => true
  | _ => false

/-- The file operations one argument of a successful `FileLogger.Log`
call contributes, per the (amended) output-format specification: a
`Loggable` event writes its own full rendering (followed by the sync the
sink performs for it), a plain `error` is rendered as
`<timestamp> - <message>`, and any other value is written via its
default `fmt.Sprintf` formatting. -/
def renderEventSpec (now : String) : LogArg → List FileOp
  | LogArg.nilArg => []
  | LogArg.loggable r _ => [FileOp.write r, FileOp.sync]
  | LogArg.plainError m => [FileOp.write now, FileOp.write " - ", FileOp.write m]
  | LogArg.other s => [FileOp.write s]

/-- Join per-event renderings with the `"\nCaused by:\n"` separator
between consecutive events. -/
def joinCausedBy : List (List FileOp) → List FileOp
  | [] => []
  | [ops] => ops
  | ops :: rest => ops ++ [FileOp.write "\nCaused by:\n"] ++ joinCausedBy rest

/-! ## Theorems -/

/-- Claim C1: for every list of child sinks, every event, and every
combination of child outcomes (success or error), the composite's `Log`,
`LogNoStack`, and `LogJson` calls return `nil`/no-error to the caller;
no child sink's error ever propagates to the composite's caller.  The
children list quantifies over all child behaviours, `hasHandler` over
the handler configuration. -/
theorem polyLogger_log_family_never_fails (hasHandler : Bool)
    (children : List ChildLogger) :
    (PolyLogger.Log hasHandler children).returned = none ∧
    (PolyLogger.LogNoStack hasHandler children).returned = none ∧
    (PolyLogger.LogJson hasHandler children).returned = none :=
  ⟨rfl, rfl, rfl⟩

/-- Claim C6: for every rotating file sink and every log call on it, if
the delegated write to the underlying file sink errors, the call returns
that error with the state unchanged (counter not incremented) and no
rotation attempted, whatever the would-be rotation outcome. -/
theorem sizeBasedRolling_error_skips_rotation (s : SizeBasedRollingFileLogger)
    (e : String) (rollErr : Option String) :
    s.Log (some e) rollErr = { err := some e, state := s, rolled := false } ∧
    s.LogNoStack (some e) rollErr = { err := some e, state := s, rolled := false } ∧
    s.LogJson (some e) rollErr = { err := some e, state := s, rolled := false } :=
  ⟨rfl, rfl, rfl⟩

/-- Claim C8: constructing a count-based rotating sink with a threshold
`≤ 0` returns a validation error and no sink; with threshold `≥ 1`
validation passes: construction succeeds whenever the underlying file
opens, and an open failure surfaces as that open error, not a validation
error. -/
theorem newRolling_threshold_validation (n : Int) (openErr : Option String) :
    (n ≤ 0 → NewRollingFileLoggerWithSizeLimit n openErr =
      (none, some "log files must have room for at least 1 message.")) ∧
    (1 ≤ n → NewRollingFileLoggerWithSizeLimit n none =
      (some { countToRollOn := n, curCount := 0 }, none)) ∧
    (1 ≤ n → ∀ e, NewRollingFileLoggerWithSizeLimit n (some e) = (none, some e)) := by
  refine ⟨fun hle => ?_, fun hge => ?_, fun hge e => ?_⟩
  · simp [NewRollingFileLoggerWithSizeLimit, hle]
  · simp [NewRollingFileLoggerWithSizeLimit]
    omega
  · simp [NewRollingFileLoggerWithSizeLimit]
    omega

/-- Witness for C8: instantiates the validation theorem at threshold -1
(rejected) and at threshold 2 (accepted when the file opens). -/
theorem newRolling_threshold_validation_witness :
    ((-1 : Int) ≤ 0 ∧ NewRollingFileLoggerWithSizeLimit (-1) none =
      (none, some "log files must have room for at least 1 message.")) ∧
    ((1 : Int) ≤ 2 ∧ NewRollingFileLoggerWithSizeLimit 2 none =
      (some { countToRollOn := 2, curCount := 0 }, none)) :=
  ⟨⟨by norm_num, (newRolling_threshold_validation (-1) none).1 (by norm_num)⟩,
   ⟨by norm_num, (newRolling_threshold_validation 2 none).2.1 (by norm_num)⟩⟩

/-- Claim C10: for every non-nil event lacking the `JsonCapable`
capability, when `LogJson`'s fallback path fails (serialisation error,
or write error of the JSON bytes), the call returns that error but the
deferred single-newline write still happens before the lock is released,
so the file is modified (the trace is nonempty) even on a failed call. -/
theorem logJson_fallback_failure_still_writes (now m e : String) :
    (∀ w, FileLogger.LogJson now (JsonArg.plain m) (some e) w =
      (some e, [FileOp.write "\n"])) ∧
    FileLogger.LogJson now (JsonArg.plain m) none (some e) =
      (some e, [FileOp.write "\n"]) ∧
    ([FileOp.write "\n"] : List FileOp) ≠ [] :=
  ⟨fun _ => rfl, rfl, by simp⟩

/-- Helper: the count invariant `0 ≤ curCount < countToRollOn` is
preserved by one delegated-log-plus-rotation step, for any delegate and
rotation outcomes. -/
theorem log_step_preserves_count_invariant (s : SizeBasedRollingFileLogger)
    (delegateErr rollErr : Option String)
    (hthr : 1 ≤ s.countToRollOn)
    (hlo : 0 ≤ s.curCount) (hhi : s.curCount < s.countToRollOn) :
    0 ≤ (s.Log delegateErr rollErr).state.curCount ∧
    (s.Log delegateErr rollErr).state.curCount <
      (s.Log delegateErr rollErr).state.countToRollOn := by
  cases delegateErr with
  | some e => exact ⟨hlo, hhi⟩
  | none =>
    unfold SizeBasedRollingFileLogger.Log
      SizeBasedRollingFileLogger.incAndRollIfNecessary
      SizeBasedRollingFileLogger.roll
    by_cases hc : s.curCount + 1 ≥ s.countToRollOn
    · simp only [hc, if_pos]
      exact ⟨le_refl 0, hthr⟩
    · simp only [hc, if_neg, not_false_iff]
      constructor
      · omega
      · omega

/-- Claim C7: for every count-based rotating sink with threshold ≥ 1
satisfying the between-calls invariant `0 ≤ curCount < countToRollOn`
(established at construction, where `curCount = 0`): a successful log
that stays below the threshold increments the count by exactly one; a
successful log that reaches the threshold rotates and resets the count
to 0 regardless of the rotation outcome `rollErr`; and after any of the
three log operations, with any outcomes, the invariant still holds, so
the count stays strictly below the threshold between calls. -/
theorem sizeBasedRolling_count_invariant (s : SizeBasedRollingFileLogger)
    (delegateErr rollErr : Option String)
    (hthr : 1 ≤ s.countToRollOn)
    (hlo : 0 ≤ s.curCount) (hhi : s.curCount < s.countToRollOn) :
    (s.curCount + 1 < s.countToRollOn →
      s.Log none rollErr =
        { err := none, state := { s with curCount := s.curCount + 1 }, rolled := false }) ∧
    (s.countToRollOn ≤ s.curCount + 1 →
      s.Log none rollErr =
        { err := rollErr, state := { s with curCount := 0 }, rolled := true }) ∧
    (0 ≤ (s.Log delegateErr rollErr).state.curCount ∧
      (s.Log delegateErr rollErr).state.curCount <
        (s.Log delegateErr rollErr).state.countToRollOn) ∧
    (0 ≤ (s.LogNoStack delegateErr rollErr).state.curCount ∧
      (s.LogNoStack delegateErr rollErr).state.curCount <
        (s.LogNoStack delegateErr rollErr).state.countToRollOn) ∧
    (0 ≤ (s.LogJson delegateErr rollErr).state.curCount ∧
      (s.LogJson delegateErr rollErr).state.curCount <
        (s.LogJson delegateErr rollErr).state.countToRollOn) := by
  have hNoStack : s.LogNoStack delegateErr rollErr = s.Log delegateErr rollErr := rfl
  have hJson : s.LogJson delegateErr rollErr = s.Log delegateErr rollErr := rfl
  refine ⟨fun hlt => ?_, fun hge => ?_, ?_, ?_, ?_⟩
  · unfold SizeBasedRollingFileLogger.Log
      SizeBasedRollingFileLogger.incAndRollIfNecessary
    simp only [if_neg (by simp; omega : ¬ (s.curCount + 1 ≥ s.countToRollOn))]
  · unfold SizeBasedRollingFileLogger.Log
      SizeBasedRollingFileLogger.incAndRollIfNecessary
      SizeBasedRollingFileLogger.roll
    simp only [if_pos (by simp; omega : s.curCount + 1 ≥ s.countToRollOn)]
  · exact log_step_preserves_count_invariant s delegateErr rollErr hthr hlo hhi
  · rw [hNoStack]
    exact log_step_preserves_count_invariant s delegateErr rollErr hthr hlo hhi
  · rw [hJson]
    exact log_step_preserves_count_invariant s delegateErr rollErr hthr hlo hhi

/-- Witness for C7: a sink with threshold 3 and count 1 logs
successfully without rotating; one with count 2 rotates and resets to
0. -/
theorem sizeBasedRolling_count_invariant_witness :
    ((1 : Int) ≤ 3 ∧ (0 : Int) ≤ 1 ∧ (1 : Int) < 3 ∧
      SizeBasedRollingFileLogger.Log ⟨3, 1⟩ none none =
        { err := none, state := ⟨3, 2⟩, rolled := false }) ∧
    (SizeBasedRollingFileLogger.Log ⟨3, 2⟩ none none =
      { err := none, state := ⟨3, 0⟩, rolled := true }) :=
  ⟨⟨by norm_num, by norm_num, by norm_num,
    (sizeBasedRolling_count_invariant ⟨3, 1⟩ none none (by norm_num) (by norm_num)
      (by norm_num)).1 (by norm_num)⟩,
   (sizeBasedRolling_count_invariant ⟨3, 2⟩ none none (by norm_num) (by norm_num)
      (by norm_num)).2.1 (by norm_num)⟩

/-- Helper: children whose `Log` succeeded contribute no handler
invocation. -/
theorem handlerCalls_of_all_success (hasHandler : Bool) (l : List ChildLogger)
    (h : ∀ x ∈ l, x.logResult = none) :
    (l.map (fun c => PolyLogger.runLoggerWithFail hasHandler c.logResult)).flatten = [] := by
  induction l with
  | nil => rfl
  | cons a t ih =>
    simp only [List.map_cons, List.flatten_cons]
    rw [h a (List.mem_cons_self a t),
      ih (fun x hx => h x (List.mem_cons_of_mem a hx))]
    rfl

/-- Claim C3: in a composite `Log` call where exactly one child (`c`,
sitting between `pre` and `post`) returns an error `e` and every other
child succeeds, the failure handler is invoked exactly once, with that
error; every child, the failing one included, receives exactly one
dispatch (the dispatched indices are exactly `0, …, N-1`); and the
composite's call returns no error. -/
theorem polyLogger_single_failure (pre post : List ChildLogger)
    (c : ChildLogger) (e : String)
    (hc : c.logResult = some e)
    (hpre : ∀ x ∈ pre, x.logResult = none)
    (hpost : ∀ x ∈ post, x.logResult = none) :
    (PolyLogger.Log true (pre ++ c :: post)).returned = none ∧
    (PolyLogger.Log true (pre ++ c :: post)).handlerCalls = [e] ∧
    (PolyLogger.Log true (pre ++ c :: post)).dispatched =
      List.range (pre.length + 1 + post.length) := by
  refine ⟨rfl, ?_, ?_⟩
  · show ((pre ++ c :: post).map
      (fun x => PolyLogger.runLoggerWithFail true x.logResult)).flatten = [e]
    rw [List.map_append, List.flatten_append, handlerCalls_of_all_success true pre hpre]
    simp only [List.map_cons, List.flatten_cons, hc,
      handlerCalls_of_all_success true post hpost]
    rfl
  · show ((pre ++ c :: post).enum.map Prod.fst) = _
    rw [List.enum_map_fst]
    congr 1
    simp only [List.length_append, List.length_cons]
    omega

/-- Witness for C3: three children where only the middle one fails with
`"boom"`. -/
theorem polyLogger_single_failure_witness :
    (PolyLogger.Log true
      [⟨true, none, none, none⟩, ⟨true, some "boom", none, none⟩,
        ⟨false, none, none, none⟩]).returned = none ∧
    (PolyLogger.Log true
      [⟨true, none, none, none⟩, ⟨true, some "boom", none, none⟩,
        ⟨false, none, none, none⟩]).handlerCalls = ["boom"] := by
  have h := polyLogger_single_failure [⟨true, none, none, none⟩]
    [⟨false, none, none, none⟩] ⟨true, some "boom", none, none⟩ "boom"
    rfl (by intro x hx; simp at hx; rw [hx]) (by intro x hx; simp at hx; rw [hx])
  exact ⟨h.1, h.2.1⟩

/-- Helper: an index is kept by the robust filter iff the child at that
index passes the `RobustLogger` assertion. -/
theorem mem_robustChildren_fst (cs : List ChildLogger) (i : Nat)
    (hi : i < cs.length) :
    i ∈ (robustChildren cs).map Prod.fst ↔ cs[i].robust := by
  unfold robustChildren
  simp only [List.mem_map, List.mem_filter]
  constructor
  · rintro ⟨⟨j, x⟩, ⟨hmem, hrob⟩, hfst⟩
    simp only at hfst
    subst hfst
    rw [List.mk_mem_enum_iff_getElem?, List.getElem?_eq_getElem hi] at hmem
    simp only [Option.some.injEq] at hmem
    rw [hmem]
    exact hrob
  · intro hrob
    refine ⟨(i, cs[i]), ⟨?_, hrob⟩, rfl⟩
    rw [List.mk_mem_enum_iff_getElem?, List.getElem?_eq_getElem hi]

/-- Helper: filtering an enumerated list on a property of the element
and projecting back to elements is filtering the list itself. -/
theorem enumFrom_filter_snd {α : Type} (q : α → Bool) (cs : List α) :
    ∀ n, ((List.enumFrom n cs).filter (fun p => q p.2)).map Prod.snd = cs.filter q := by
  induction cs with
  | nil => intro n; rfl
  | cons a t ih =>
    intro n
    simp only [List.enumFrom, List.filter]
    cases hqa : q a with
    | true => simp only [List.map_cons, ih (n + 1)]
    | false => exact ih (n + 1)

/-- Claim C2: a composite `LogNoStack` or `LogJson` call dispatches to
exactly the children passing the `RobustLogger` capability assertion
(index `i` is dispatched iff child `i` is robust), and the
failure-handler invocations of such a call are exactly those arising
from the robust children's results — a child lacking the capability
receives no call and contributes nothing to the failure handler. -/
theorem polyLogger_robust_dispatch (hasHandler : Bool) (cs : List ChildLogger)
    (i : Nat) (hi : i < cs.length) :
    (i ∈ (PolyLogger.LogNoStack hasHandler cs).dispatched ↔ cs[i].robust) ∧
    (i ∈ (PolyLogger.LogJson hasHandler cs).dispatched ↔ cs[i].robust) ∧
    (PolyLogger.LogNoStack hasHandler cs).handlerCalls =
      ((cs.filter (fun c => c.robust)).map
        (fun c => PolyLogger.runLoggerWithFail hasHandler c.logNoStackResult)).flatten ∧
    (PolyLogger.LogJson hasHandler cs).handlerCalls =
      ((cs.filter (fun c => c.robust)).map
        (fun c => PolyLogger.runLoggerWithFail hasHandler c.logJsonResult)).flatten := by
  have hfilter : (robustChildren cs).map Prod.snd = cs.filter (fun c => c.robust) := by
    unfold robustChildren List.enum
    exact enumFrom_filter_snd (fun c => c.robust) cs 0
  refine ⟨mem_robustChildren_fst cs i hi, mem_robustChildren_fst cs i hi, ?_, ?_⟩
  · show ((robustChildren cs).map
      (fun p => PolyLogger.runLoggerWithFail hasHandler p.2.logNoStackResult)).flatten = _
    rw [← hfilter, List.map_map]
    rfl
  · show ((robustChildren cs).map
      (fun p => PolyLogger.runLoggerWithFail hasHandler p.2.logJsonResult)).flatten = _
    rw [← hfilter, List.map_map]
    rfl

/-- Witness for C2: two children, the first robust and failing on
`LogNoStack`, the second not robust; index 0 is dispatched, index 1 is
not, and only the robust child's error reaches the handler. -/
theorem polyLogger_robust_dispatch_witness :
    (0 ∈ (PolyLogger.LogNoStack true
      [⟨true, none, some "nsfail", none⟩, ⟨false, none, some "skipped", none⟩]).dispatched
      ↔ True) ∧
    (¬ 1 ∈ (PolyLogger.LogNoStack true
      [⟨true, none, some "nsfail", none⟩, ⟨false, none, some "skipped", none⟩]).dispatched) ∧
    (PolyLogger.LogNoStack true
      [⟨true, none, some "nsfail", none⟩, ⟨false, none, some "skipped", none⟩]).handlerCalls
      = ["nsfail"] := by
  have h0 := polyLogger_robust_dispatch true
    [⟨true, none, some "nsfail", none⟩, ⟨false, none, some "skipped", none⟩] 0 (by norm_num)
  have h1 := polyLogger_robust_dispatch true
    [⟨true, none, some "nsfail", none⟩, ⟨false, none, some "skipped", none⟩] 1 (by norm_num)
  refine ⟨?_, ?_, ?_⟩
  · simp only [h0.1]
    exact iff_of_true rfl trivial
  · intro hmem
    have := h1.1.mp hmem
    simp at this
  · rw [h0.2.2.1]
    rfl

/-- Helper: if a `nil` value occurs among the arguments, the event loop
of `FileLogger.Log` returns an error (either the nil error itself or an
earlier argument's rendering failure). -/
theorem logEvents_isSome_of_mem_nil (now : String) (args : List LogArg)
    (h : LogArg.nilArg ∈ args) :
    (FileLogger.logEvents now args).1.isSome = true := by
  induction args with
  | nil => cases h
  | cons a rest ih =>
    cases h with
    | head => rfl
    | tail _ hm =>
      match a with
      | LogArg.nilArg => rfl
      | LogArg.loggable r re =>
        match re with
        | some e => rfl
        | none => simpa [FileLogger.logEvents, FileLogger.logVia] using ih hm
      | LogArg.plainError m =>
        simpa [FileLogger.logEvents, FileLogger.logNonSherlogError] using ih hm
      | LogArg.other s =>
        simpa [FileLogger.logEvents] using ih hm

/-- Counterexample to claim C4 as stated: logging the single `nil` event
through `FileLogger.Log` returns the null-input error, yet the deferred
terminator write still runs, so the file is modified. -/
theorem fileLog_nil_modifies_file_cx :
    (FileLogger.Log "T" [LogArg.nilArg]).1 = some "tried to log nil error" ∧
    (FileLogger.Log "T" [LogArg.nilArg]).2 = [FileOp.write "\n\n"] ∧
    (FileLogger.Log "T" [LogArg.nilArg]).2 ≠ [] :=
  ⟨rfl, rfl, by decide⟩

/-- Amended claim C4: a `nil` event to `LogNoStack` or `LogJson` returns
the null-input error with no file operation at all; for `Log`, a `nil`
event in the list still makes the call return an error, but the deferred
blank-line terminator (after any events already processed) is written
anyway, so the file is modified. -/
theorem fileLog_nil_input_amended (now : String) (args : List LogArg)
    (h : LogArg.nilArg ∈ args) :
    ((FileLogger.Log now args).1.isSome = true ∧ (FileLogger.Log now args).2 ≠ []) ∧
    FileLogger.LogNoStack now NoStackArg.nilErr = (some "tried to log nil error", []) ∧
    (∀ mErr wErr, FileLogger.LogJson now JsonArg.nilErr mErr wErr =
      (some "tried to log nil error", [])) := by
  refine ⟨⟨?_, ?_⟩, rfl, fun _ _ => rfl⟩
  · have hne : args ≠ [] := by rintro rfl; cases h
    have hlen : ¬ args.length < 1 := by
      cases args with
      | nil => exact absurd rfl hne
      | cons a t => simp
    simp only [FileLogger.Log, if_neg hlen]
    exact logEvents_isSome_of_mem_nil now args h
  · have hne : args ≠ [] := by rintro rfl; cases h
    have hlen : ¬ args.length < 1 := by
      cases args with
      | nil => exact absurd rfl hne
      | cons a t => simp
    simp only [FileLogger.Log, if_neg hlen]
    simp

/-- Witness for the amended C4: the single-`nil` argument list. -/
theorem fileLog_nil_input_amended_witness :
    LogArg.nilArg ∈ [LogArg.nilArg] ∧
    (FileLogger.Log "T" [LogArg.nilArg]).1.isSome = true ∧
    (FileLogger.Log "T" [LogArg.nilArg]).2 ≠ [] := by
  have h := fileLog_nil_input_amended "T" [LogArg.nilArg] (List.mem_singleton.mpr rfl)
  exact ⟨List.mem_singleton.mpr rfl, h.1.1, h.1.2⟩

/-- Helper: `countSyncs` distributes over trace concatenation. -/
theorem countSyncs_append (a b : List FileOp) :
    countSyncs (a ++ b) = countSyncs a + countSyncs b :=
  List.countP_append _ a b

/-- Helper: on a successful run of `FileLogger.Log`'s event loop, the
trace contains exactly one `Sync` per `Loggable` argument: plain errors
and other values are written without any sync. -/
theorem countSyncs_logEvents (now : String) (args : List LogArg)
    (h : (FileLogger.logEvents now args).1 = none) :
    countSyncs (FileLogger.logEvents now args).2 = args.countP isLoggableArg := by
  induction args with
  | nil => rfl
  | cons a rest ih =>
    have hsep : countSyncs (if rest.isEmpty then ([] : List FileOp)
        else [FileOp.write "\nCaused by:\n"]) = 0 := by
      cases rest <;> rfl
    match a with
    | LogArg.nilArg => exact absurd h (by simp [FileLogger.logEvents])
    | LogArg.loggable r re =>
      match re with
      | some e => exact absurd h (by simp [FileLogger.logEvents, FileLogger.logVia])
      | none =>
        have htail : (FileLogger.logEvents now rest).1 = none := by
          simpa [FileLogger.logEvents, FileLogger.logVia] using h
        simp only [FileLogger.logEvents, FileLogger.logVia, countSyncs_append,
          hsep, ih htail, List.countP_cons, isLoggableArg]
        simp [countSyncs, List.countP_cons]
        omega
    | LogArg.plainError m =>
      have htail : (FileLogger.logEvents now rest).1 = none := by
        simpa [FileLogger.logEvents, FileLogger.logNonSherlogError] using h
      simp only [FileLogger.logEvents, FileLogger.logNonSherlogError, countSyncs_append,
        hsep, ih htail, List.countP_cons, isLoggableArg]
      simp [countSyncs, List.countP_cons]
    | LogArg.other s =>
      have htail : (FileLogger.logEvents now rest).1 = none := by
        simpa [FileLogger.logEvents] using h
      simp only [FileLogger.logEvents, countSyncs_append,
        hsep, ih htail, List.countP_cons, isLoggableArg]
      simp [countSyncs, List.countP_cons]

/-- Counterexample to claim C5 as stated: a successful `Log` call on a
single plain error writes its bytes but performs no sync at all — the
plain-error path never syncs the file. -/
theorem fileLog_plain_error_no_sync_cx :
    (FileLogger.Log "T" [LogArg.plainError "boom"]).1 = none ∧
    (FileLogger.Log "T" [LogArg.plainError "boom"]).2 =
      [FileOp.write "T", FileOp.write " - ", FileOp.write "boom", FileOp.write "\n\n"] ∧
    FileOp.sync ∉ (FileLogger.Log "T" [LogArg.plainError "boom"]).2 :=
  ⟨rfl, rfl, by decide⟩

/-- Amended claim C5: in every successful `FileLogger.Log` call, the
file is synced exactly once per event satisfying the `Loggable`
capability (the sync directly follows that event's bytes, per
`FileLogger.logVia`); events rendered as plain errors or via default
formatting are written without any sync. -/
theorem fileLog_sync_only_for_loggables (now : String) (args : List LogArg)
    (h : (FileLogger.Log now args).1 = none) :
    countSyncs (FileLogger.Log now args).2 = args.countP isLoggableArg := by
  match args with
  | [] => exact absurd h (by simp [FileLogger.Log])
  | a :: rest =>
    have hlen : ¬ (a :: rest).length < 1 := by simp
    simp only [FileLogger.Log, if_neg hlen] at h ⊢
    rw [countSyncs_append, countSyncs_logEvents now (a :: rest) h]
    rfl

/-- Witness for the amended C5: one `Loggable` event and one plain
error give exactly one sync. -/
theorem fileLog_sync_only_for_loggables_witness :
    (FileLogger.Log "T" [LogArg.loggable "FULL" none, LogArg.plainError "boom"]).1 = none ∧
    countSyncs (FileLogger.Log "T"
      [LogArg.loggable "FULL" none, LogArg.plainError "boom"]).2 = 1 :=
  ⟨rfl, fileLog_sync_only_for_loggables "T"
    [LogArg.loggable "FULL" none, LogArg.plainError "boom"] rfl⟩

/-- Counterexample to claim C9 as stated: a successful `Log` call on a
value that is neither `Loggable` nor an `error` (here the string value
`"hello"`) writes only its default formatting, not
`<timestamp> - <message>` as the claim predicts for every
non-`Loggable` event. -/
theorem fileLog_other_value_rendering_cx :
    (FileLogger.Log "T" [LogArg.other "hello"]).1 = none ∧
    (FileLogger.Log "T" [LogArg.other "hello"]).2 =
      [FileOp.write "hello", FileOp.write "\n\n"] ∧
    (FileLogger.Log "T" [LogArg.other "hello"]).2 ≠
      [FileOp.write "T", FileOp.write " - ", FileOp.write "hello",
        FileOp.write "\n\n"] :=
  ⟨rfl, rfl, by decide⟩

/-- Helper: on success, the event loop's trace is exactly the per-event
renderings of `renderEventSpec` joined by the `"Caused by:"`
separator. -/
theorem logEvents_trace_on_success (now : String) (args : List LogArg)
    (h : (FileLogger.logEvents now args).1 = none) :
    (FileLogger.logEvents now args).2 =
      joinCausedBy (args.map (renderEventSpec now)) := by
  induction args with
  | nil => rfl
  | cons a rest ih =>
    have hstep : ∀ ops : List FileOp,
        ops ++ (if rest.isEmpty then ([] : List FileOp)
          else [FileOp.write "\nCaused by:\n"]) ++ joinCausedBy (rest.map (renderEventSpec now))
        = joinCausedBy (ops :: rest.map (renderEventSpec now)) := by
      intro ops
      cases rest with
      | nil => simp [joinCausedBy]
      | cons b t => simp [joinCausedBy, List.append_assoc]
    match a with
    | LogArg.nilArg => exact absurd h (by simp [FileLogger.logEvents])
    | LogArg.loggable r re =>
      match re with
      | some e => exact absurd h (by simp [FileLogger.logEvents, FileLogger.logVia])
      | none =>
        have htail : (FileLogger.logEvents now rest).1 = none := by
          simpa [FileLogger.logEvents, FileLogger.logVia] using h
        simp only [FileLogger.logEvents, FileLogger.logVia, List.map_cons,
          renderEventSpec, ih htail]
        exact hstep [FileOp.write r, FileOp.sync]
    | LogArg.plainError m =>
      have htail : (FileLogger.logEvents now rest).1 = none := by
        simpa [FileLogger.logEvents, FileLogger.logNonSherlogError] using h
      simp only [FileLogger.logEvents, FileLogger.logNonSherlogError, List.map_cons,
        renderEventSpec, ih htail]
      exact hstep [FileOp.write now, FileOp.write " - ", FileOp.write m]
    | LogArg.other s =>
      have htail : (FileLogger.logEvents now rest).1 = none := by
        simpa [FileLogger.logEvents] using h
      simp only [FileLogger.logEvents, List.map_cons, renderEventSpec, ih htail]
      exact hstep [FileOp.write s]

/-- Amended claim C9: in every successful `FileLogger.Log` call, each
event satisfying the `Loggable` capability is written via its own full
rendering (followed by its sync), each other event satisfying `error`
is rendered as `<timestamp> - <message>`, and any remaining value is
written via its default `fmt.Sprintf` formatting; consecutive events
are joined by the literal `"\nCaused by:\n"` line, and the whole call's
output is terminated by the two-newline terminator. -/
theorem fileLog_rendering_amended (now : String) (args : List LogArg)
    (h : (FileLogger.Log now args).1 = none) :
    (FileLogger.Log now args).2 =
      joinCausedBy (args.map (renderEventSpec now)) ++ [FileOp.write "\n\n"] := by
  match args with
  | [] => exact absurd h (by simp [FileLogger.Log])
  | a :: rest =>
    have hlen : ¬ (a :: rest).length < 1 := by simp
    simp only [FileLogger.Log, if_neg hlen] at h ⊢
    rw [logEvents_trace_on_success now (a :: rest) h]

/-- Witness for the amended C9: a `Loggable` event followed by a plain
error renders as the full rendering, the separator line, the timestamped
message, and the terminator. -/
theorem fileLog_rendering_amended_witness :
    (FileLogger.Log "T" [LogArg.loggable "FULL" none, LogArg.plainError "boom"]).1
      = none ∧
    (FileLogger.Log "T" [LogArg.loggable "FULL" none, LogArg.plainError "boom"]).2 =
      [FileOp.write "FULL", FileOp.sync, FileOp.write "\nCaused by:\n",
        FileOp.write "T", FileOp.write " - ", FileOp.write "boom",
        FileOp.write "\n\n"] := by
  have h := fileLog_rendering_amended "T"
    [LogArg.loggable "FULL" none, LogArg.plainError "boom"] rfl
  exact ⟨rfl, by rw [h]; rfl⟩

end Sherlog
